import Mathlib

/-!
Verification of the anchor bancho server (protocol + session engine).

Each section embeds one region of the Python source as executable Lean
definitions and proves (or refutes) the corresponding specification claim.
Machine integers are modelled as `Int`/`Nat`; mutable handler state is
passed explicitly; packet emission is modelled as lists of events.
-/

namespace Anchor

/-! ## Version negotiation (`Player.get_client`, src/app/objects/player.py)

`get_client` selects the protocol cohort via
`min(PACKETS.keys(), key=lambda x: abs(x - version))`.
Python's `min` with a key returns the *first* element attaining the minimal
key, scanning in iteration order; a candidate replaces the current best only
when its key is strictly smaller. -/

/-- Python `min(x :: xs, key=f)`: left fold keeping the current best, replaced
only on a strictly smaller key, so the first minimiser wins. -/
def pyMinBy (f : Int → Int) (x : Int) (xs : List Int) : Int :=
  xs.foldl (fun best y => if f y < f best then y else best) x

/-- The `min(keys, key=...)` call of `Player.get_client`, over an arbitrary
key list (Python's `min` of an empty iterable raises; 0 stands in for that
unreachable case). -/
def get_client_over (keys : List Int) (version : Int) : Int :=
  match keys with
  | [] => 0
  | x :: xs => pyMinBy (fun k => |k - version|) x xs

/-- The registered cohort keys of `PACKETS`, in dict insertion order.  Each
`bNNN` module imported in `app/clients/__init__.py` — b20130815, b20130329,
b20121223, b20121119, b20121008, b20120812, b20120725, b20120704, b1700,
b1150, b675, b590, b553, b535, b503, b483, b399, b388, b337, b323, b319 —
registers `PACKETS[NNN]`, the convention visible in `b503/__init__.py`;
the companion keys visible in src are 558 (`b590/encoder.py` also registers
into `PACKETS[558]`) and 504/487 (`b503/__init__.py`).  Insertion is
newest-first: the modules are imported in descending order and
`list(PACKETS.keys())[0]` is used as the latest supported version in
`login_received`. -/
def anchorVersions : List Int :=
  [20130815, 20130329, 20121223, 20121119, 20121008, 20120812, 20120725,
   20120704, 1700, 1150, 675, 590, 558, 553, 535, 504, 503, 487, 483, 399,
   388, 337, 323, 319]

/-- `Player.get_client`: snap a client version to the nearest registered
cohort key by absolute distance. -/
def get_client (version : Int) : Int :=
  get_client_over anchorVersions version

theorem pyMinBy_cons (f : Int → Int) (x z : Int) (zs : List Int) :
    pyMinBy f x (z :: zs) = pyMinBy f (if f z < f x then z else x) zs := rfl

theorem pyMinBy_eq_or_mem (f : Int → Int) (x : Int) (xs : List Int) :
    pyMinBy f x xs = x ∨ pyMinBy f x xs ∈ xs := by
  induction xs generalizing x with
  | nil => exact Or.inl rfl
  | cons z zs ih =>
    rw [pyMinBy_cons]
    by_cases hz : f z < f x
    · rw [if_pos hz]
      rcases ih z with h | h
      · right; rw [h]; exact List.mem_cons_self _ _
      · right; exact List.mem_cons_of_mem _ h
    · rw [if_neg hz]
      rcases ih x with h | h
      · left; exact h
      · right; exact List.mem_cons_of_mem _ h

theorem pyMinBy_min (f : Int → Int) (x : Int) (xs : List Int) :
    f (pyMinBy f x xs) ≤ f x ∧ ∀ y ∈ xs, f (pyMinBy f x xs) ≤ f y := by
  induction xs generalizing x with
  | nil => exact ⟨le_refl _, by simp⟩
  | cons z zs ih =>
    rw [pyMinBy_cons]
    by_cases hz : f z < f x
    · rw [if_pos hz]
      obtain ⟨h1, h2⟩ := ih z
      refine ⟨le_trans h1 (le_of_lt hz), ?_⟩
      intro y hy
      rcases List.mem_cons.mp hy with rfl | hy
      · exact h1
      · exact h2 y hy
    · rw [if_neg hz]
      obtain ⟨h1, h2⟩ := ih x
      refine ⟨h1, ?_⟩
      intro y hy
      rcases List.mem_cons.mp hy with rfl | hy
      · exact le_trans h1 (not_lt.mp hz)
      · exact h2 y hy

/-- On a strictly descending candidate list, the first minimiser is the
numerically greatest one: any tie in the key resolves to the larger value. -/
theorem pyMinBy_tie_largest (f : Int → Int) (x : Int) (xs : List Int)
    (hdesc : ∀ y ∈ xs, y < x) (hpair : xs.Pairwise (fun a b => b < a)) :
    ∀ w, (w = x ∨ w ∈ xs) → f w = f (pyMinBy f x xs) → w ≤ pyMinBy f x xs := by
  induction xs generalizing x with
  | nil =>
    intro w hw _
    rcases hw with rfl | h
    · exact le_refl _
    · simp at h
  | cons z zs ih =>
    have hzx : z < x := hdesc z (List.mem_cons_self _ _)
    have hzs_lt_z : ∀ u ∈ zs, u < z := (List.pairwise_cons.mp hpair).1
    have hpair' : zs.Pairwise (fun a b => b < a) := (List.pairwise_cons.mp hpair).2
    intro w hw hkey
    rw [pyMinBy_cons] at hkey ⊢
    by_cases hz : f z < f x
    · rw [if_pos hz] at hkey ⊢
      have hmin := pyMinBy_min f z zs
      rcases hw with rfl | hw
      · -- w = x: impossible, the result's key is strictly below f x
        exfalso
        have hlt : f (pyMinBy f z zs) < f w := lt_of_le_of_lt hmin.1 hz
        rw [← hkey] at hlt
        exact lt_irrefl _ hlt
      · rcases List.mem_cons.mp hw with rfl | hw
        · exact ih w hzs_lt_z hpair' w (Or.inl rfl) hkey
        · exact ih z hzs_lt_z hpair' w (Or.inr hw) hkey
    · rw [if_neg hz] at hkey ⊢
      have hzs_lt_x : ∀ u ∈ zs, u < x := fun u hu =>
        lt_trans (hzs_lt_z u hu) hzx
      have hmin := pyMinBy_min f x zs
      rcases hw with rfl | hw
      · exact ih w hzs_lt_x hpair' w (Or.inl rfl) hkey
      · rcases List.mem_cons.mp hw with rfl | hw
        · -- w = z: its key is at least f x, so a tie forces f x minimal too
          have hxw : f x ≤ f w := not_lt.mp hz
          have hrx : f (pyMinBy f x zs) ≤ f x := hmin.1
          have hxeq : f x = f (pyMinBy f x zs) :=
            le_antisymm (hkey ▸ hxw) hrx
          have hx_le : x ≤ pyMinBy f x zs :=
            ih x hzs_lt_x hpair' x (Or.inl rfl) hxeq
          exact le_trans (le_of_lt hzx) hx_le
        · exact ih x hzs_lt_x hpair' w (Or.inr hw) hkey

/-- For *any* key list in strictly descending (newest-first) order, the
cohort chosen by the `min` call is a registered key minimising `|k - v|`,
and a tie in absolute distance resolves toward the numerically larger
(newer) key — independent of which keys exactly are registered. -/
theorem get_client_over_nearest_tie_newer (keys : List Int) (v k : Int)
    (hpair : keys.Pairwise (fun a b => b < a)) (hk : k ∈ keys) :
    get_client_over keys v ∈ keys ∧
    |get_client_over keys v - v| ≤ |k - v| ∧
    (|k - v| = |get_client_over keys v - v| → k ≤ get_client_over keys v) := by
  cases keys with
  | nil => simp at hk
  | cons x xs =>
    have hdesc : ∀ y ∈ xs, y < x := (List.pairwise_cons.mp hpair).1
    have hpair' : xs.Pairwise (fun a b => b < a) := (List.pairwise_cons.mp hpair).2
    simp only [get_client_over]
    refine ⟨?_, ?_, ?_⟩
    · rcases pyMinBy_eq_or_mem (fun k => |k - v|) x xs with h | h
      · rw [h]; exact List.mem_cons_self _ _
      · exact List.mem_cons_of_mem _ h
    · have hmin := pyMinBy_min (fun k => |k - v|) x xs
      rcases List.mem_cons.mp hk with rfl | hk'
      · exact hmin.1
      · exact hmin.2 k hk'
    · intro htie
      exact pyMinBy_tie_largest (fun k => |k - v|) x xs
        hdesc hpair' k (List.mem_cons.mp hk) htie

/-- C1 (amended): the cohort chosen by `get_client` minimises `|k - v|`
over the registered cohort keys, and a tie in absolute distance resolves
toward the *newer* (numerically larger) cohort, because `PACKETS` is
iterated newest-first and Python's `min` keeps the first minimiser —
instantiating the parametric theorem at the key set registered by the
modules of `app/clients/__init__.py`. -/
theorem get_client_nearest_tie_newer (v k : Int) (hk : k ∈ anchorVersions) :
    get_client v ∈ anchorVersions ∧
    |get_client v - v| ≤ |k - v| ∧
    (|k - v| = |get_client v - v| → k ≤ get_client v) :=
  get_client_over_nearest_tie_newer anchorVersions v k (by decide) hk

/-- Witness for C1's amended theorem at v = 321, k = 319. -/
theorem get_client_nearest_tie_newer_witness :
    (319 : Int) ∈ anchorVersions ∧
    get_client 321 ∈ anchorVersions ∧
    |get_client 321 - 321| ≤ |(319 : Int) - 321| ∧
    (|(319 : Int) - 321| = |get_client 321 - 321| → (319 : Int) ≤ get_client 321) :=
  ⟨by decide, get_client_nearest_tie_newer 321 319 (by decide)⟩

set_option maxRecDepth 8192 in
/-- C1 counterexample: version 321 is at distance 2 from both registered
cohorts 319 and 323; the code picks 323 (the newer), while the claim says
the tie breaks toward the older cohort 319. -/
theorem get_client_tie_not_older :
    get_client 321 = 323 ∧
    (319 : Int) ∈ anchorVersions ∧
    |(319 : Int) - 321| = |(323 : Int) - 321| ∧
    ¬(get_client 321 ≤ 319) := by decide

/-! ## Chat rate limit (`send_message`, src/app/clients/handler.py;
`Player.silence`, src/app/objects/player.py)

The handler keeps `messages_in_last_minute` and `last_minute_stamp` per
session.  On each message: the window resets when more than 60 seconds have
passed since the stamp; then, if the counter exceeds 400, the player is
silenced for 60 s with reason "Chat spamming" (`Player.silence` enqueues a
SILENCE_INFO packet carrying the 60-second duration and creates an
`infringements` row with `action=1`); otherwise commands are dispatched and
plain messages are delivered, incrementing the counter. -/

/-- Observable side effects of one `send_message` call. -/
inductive ChatEffect
  /-- `channel.send_message` plus the deferred `messages.create`. -/
  | delivered
  /-- `commands.execute` (messages starting with `!`). -/
  | command
  /-- `Player.silence(duration, reason)`: SILENCE_INFO carries the duration,
  the infringements row carries `action` and the reason. -/
  | silenced (durationSec : Nat) (reason : String) (infringementAction : Nat)
      (silenceInfoRemaining : Nat)
deriving DecidableEq, Repr

/-- Per-session chat counters (`Player.__init__`). -/
structure ChatState where
  messages_in_last_minute : Nat
  last_minute_stamp : Nat
deriving DecidableEq, Repr

/-- `send_message` (rate-limit path): window reset, overflow check, command
dispatch, delivery with counter increment — in source order. -/
def send_message (now : Nat) (isCommand : Bool) (st : ChatState) :
    ChatState × List ChatEffect :=
  let st :=
    if now - st.last_minute_stamp > 60 then
      { st with last_minute_stamp := now, messages_in_last_minute := 0 }
    else st
  if st.messages_in_last_minute > 400 then
    (st, [.silenced 60 "Chat spamming" 1 60])
  else match isCommand with
    | true => (st, [.command])
    | false =>
      ({ st with messages_in_last_minute := st.messages_in_last_minute + 1 },
       [.delivered])

/-- Run a sequence of `(time, isCommand)` messages through the handler,
collecting all effects in order. -/
def runChat : List (Nat × Bool) → ChatState → ChatState × List ChatEffect
  | [], st => (st, [])
  | m :: ms, st =>
    let step := send_message m.1 m.2 st
    let rest := runChat ms step.1
    (rest.1, step.2 ++ rest.2)

theorem runChat_append (a b : List (Nat × Bool)) (st : ChatState) :
    runChat (a ++ b) st =
      ((runChat b (runChat a st).1).1,
       (runChat a st).2 ++ (runChat b (runChat a st).1).2) := by
  induction a generalizing st with
  | nil => simp [runChat]
  | cons m ms ih => simp [runChat, ih, List.append_assoc]

/-- Plain messages inside the 60-second window: as long as the counter stays
at or below 401 in total, every message is delivered and the counter counts
them. -/
theorem runChat_within_window (ts : List Nat) (c s : Nat)
    (hts : ∀ t ∈ ts, t ≤ s + 60) (hc : c + ts.length ≤ 401) :
    runChat (ts.map (fun t => (t, false))) ⟨c, s⟩ =
      (⟨c + ts.length, s⟩, List.replicate ts.length .delivered) := by
  induction ts generalizing c with
  | nil => simp [runChat]
  | cons t ts ih =>
    have hreset : ¬(t - s > 60) := by
      have := hts t (List.mem_cons_self _ _)
      omega
    have hcount : ¬(c > 400) := by
      simp only [List.length_cons] at hc
      omega
    simp only [List.map_cons, runChat, send_message, hreset, if_false, hcount]
    have hts' : ∀ u ∈ ts, u ≤ s + 60 := fun u hu =>
      hts u (List.mem_cons_of_mem _ hu)
    have hc' : (c + 1) + ts.length ≤ 401 := by
      simp only [List.length_cons] at hc
      omega
    rw [ih (c + 1) hts' hc']
    simp [List.replicate_succ]
    omega

/-- C2 (amended): within one fixed 60-second window (counted from the
window stamp, reset only when a message arrives more than 60 s after it),
the first 401 plain messages are all delivered without any silence, and the
402nd plain message triggers `Player.silence(60, "Chat spamming")` — a
SILENCE_INFO packet with remaining 60 and an infringements row with
action = 1 — and is not delivered. -/
theorem chat_overflow_silences_402nd (ts : List Nat) (t : Nat)
    (hts : ∀ u ∈ ts, u ≤ 60) (ht : t ≤ 60) (hlen : ts.length = 401) :
    (runChat (ts.map (fun u => (u, false))) ⟨0, 0⟩).2 =
      List.replicate 401 ChatEffect.delivered ∧
    (runChat (ts.map (fun u => (u, false)) ++ [(t, false)]) ⟨0, 0⟩).2 =
      List.replicate 401 ChatEffect.delivered ++
        [.silenced 60 "Chat spamming" 1 60] := by
  have hts0 : ∀ u ∈ ts, u ≤ 0 + 60 := by simpa using hts
  have hfirst := runChat_within_window ts 0 0 hts0 (by omega)
  constructor
  · rw [hfirst]
    show List.replicate ts.length ChatEffect.delivered =
      List.replicate 401 ChatEffect.delivered
    rw [hlen]
  · rw [runChat_append, hfirst]
    have hreset : ¬(t - (0:Nat) > 60) := by omega
    have hstep : send_message t false ⟨0 + ts.length, 0⟩ =
        (⟨0 + ts.length, 0⟩, [.silenced 60 "Chat spamming" 1 60]) := by
      simp only [send_message, hreset, if_false]
      rw [if_pos (show 0 + ts.length > 400 by omega)]
    show List.replicate ts.length ChatEffect.delivered ++
        (runChat [(t, false)] ⟨0 + ts.length, 0⟩).2 =
      List.replicate 401 ChatEffect.delivered ++
        [ChatEffect.silenced 60 "Chat spamming" 1 60]
    simp only [runChat, hstep, List.append_nil]
    rw [hlen]

/-- Witness for C2's amended theorem: 401 messages at time 0, then one
more at time 0. -/
theorem chat_overflow_silences_402nd_witness :
    (runChat ((List.replicate 401 0).map (fun u => (u, false))) ⟨0, 0⟩).2 =
      List.replicate 401 ChatEffect.delivered ∧
    (runChat ((List.replicate 401 0).map (fun u => (u, false)) ++ [(0, false)])
        ⟨0, 0⟩).2 =
      List.replicate 401 ChatEffect.delivered ++
        [.silenced 60 "Chat spamming" 1 60] :=
  chat_overflow_silences_402nd (List.replicate 401 0) 0
    (fun u hu => by rw [List.eq_of_mem_replicate hu]; decide)
    (by decide) (List.length_replicate 401 0)

/-- C2 counterexample: a session sends 401 plain messages at time 0 — all
within one 60-second window — and every one is delivered; no silence is
produced, so the 401st message does not trigger the "Chat spamming"
silence. -/
theorem chat_401_messages_all_delivered :
    (runChat (List.replicate 401 (0, false)) ⟨0, 0⟩).2 =
      List.replicate 401 ChatEffect.delivered ∧
    ChatEffect.silenced 60 "Chat spamming" 1 60 ∉
      (runChat (List.replicate 401 (0, false)) ⟨0, 0⟩).2 := by
  have h : (List.replicate 401 ((0:Nat), false)) =
      (List.replicate 401 (0:Nat)).map (fun u => (u, false)) := by
    rw [List.map_replicate]
  have hrun := runChat_within_window (List.replicate 401 0) 0 0
    (fun u hu => by rw [List.eq_of_mem_replicate hu]; decide)
    (by rw [List.length_replicate])
  rw [List.length_replicate] at hrun
  rw [h, hrun]
  refine ⟨rfl, ?_⟩
  intro hmem
  have heq := List.eq_of_mem_replicate hmem
  exact ChatEffect.noConfusion heq

/-! ## Host rotation on leave (`leave_match`, src/app/clients/handler.py)

When the leaver was the host and the match survives, the handler runs
```
for slot in player.match.slots:
    if slot.status.value & SlotStatus.HasPlayer.value:
        player.match.host = slot.player
        player.match.host.enqueue_match_transferhost()
```
(no `break`), then archives a `Host` event. -/

/-- Slot-status bit values (`SlotStatus` in `app.common.constants`, external
to this tree; standard bancho values, with
`HasPlayer = NotReady|Ready|NoMap|Playing|Complete`). -/
def SlotStatus_Open : Nat := 1

def SlotStatus_NotReady : Nat := 4

def SlotStatus_HasPlayer : Nat := 4 ||| 8 ||| 16 ||| 32 ||| 64

/-- One seat of a match: status bits and the seated player's id, if any. -/
structure Slot where
  status : Nat
  player : Option Nat
deriving DecidableEq, Repr

/-- Truthiness of `slot.status.value & SlotStatus.HasPlayer.value`. -/
def Slot.occupied (s : Slot) : Bool := s.status &&& SlotStatus_HasPlayer != 0

/-- Result of the host-rotation branch: the final host, the recipients of
MATCH_TRANSFER_HOST in emission order, and whether a `Host` event row was
archived. -/
structure HostRotation where
  host : Option Nat
  transfer_host_packets : List (Option Nat)
  host_event_archived : Bool
deriving DecidableEq, Repr

/-- The host-rotation branch of `leave_match` (entered when the match still
has an occupied slot): scan all 8 slots in order, assigning the host and
sending MATCH_TRANSFER_HOST at every occupied slot, then archive the event. -/
def leave_match_rotate_host (slots : List Slot) (leaverWasHost : Bool)
    (host0 : Option Nat) : HostRotation :=
  if leaverWasHost then
    let r := slots.foldl
      (fun (acc : Option Nat × List (Option Nat)) slot =>
        if slot.occupied then (slot.player, acc.2 ++ [slot.player]) else acc)
      (host0, [])
    ⟨r.1, r.2, true⟩
  else ⟨host0, [], false⟩

/-- The players of the occupied slots, in scan order. -/
def occupiedPlayers (slots : List Slot) : List (Option Nat) :=
  (slots.filter Slot.occupied).map Slot.player

/-- The player of the first occupied slot in scan order (what the claim
says the new host should be). -/
def firstOccupiedPlayer (slots : List Slot) : Option (Option Nat) :=
  (slots.find? Slot.occupied).map Slot.player

theorem getLast?_getD_cons {α : Type} (a x : α) (l : List α) :
    ((a :: l).getLast?).getD x = (l.getLast?).getD a := by
  induction l generalizing a x with
  | nil => rfl
  | cons b l ih =>
    rw [List.getLast?_cons_cons, ih, ih]

theorem rotate_host_foldl (slots : List Slot) (h0 : Option Nat)
    (acc : List (Option Nat)) :
    slots.foldl
      (fun (acc : Option Nat × List (Option Nat)) slot =>
        if slot.occupied then (slot.player, acc.2 ++ [slot.player]) else acc)
      (h0, acc) =
    ((occupiedPlayers slots).getLast?.getD h0, acc ++ occupiedPlayers slots) := by
  induction slots generalizing h0 acc with
  | nil => simp [occupiedPlayers]
  | cons s rest ih =>
    by_cases hs : s.occupied
    · simp only [List.foldl_cons, hs, if_true]
      rw [ih]
      have hocc : occupiedPlayers (s :: rest) = s.player :: occupiedPlayers rest := by
        simp [occupiedPlayers, List.filter_cons, hs]
      rw [hocc, getLast?_getD_cons]
      simp
    · simp only [List.foldl_cons, hs, Bool.false_eq_true, if_false]
      rw [ih]
      have hocc : occupiedPlayers (s :: rest) = occupiedPlayers rest := by
        simp [occupiedPlayers, List.filter_cons, hs]
      rw [hocc]

/-- C3 (amended): when the host leaves a surviving match, the scan visits
all slots without stopping, so the new host is the player of the *last*
occupied slot in scan order 0..7, MATCH_TRANSFER_HOST is sent to the player
of every occupied slot as the scan proceeds (the last recipient being the
final host), and a host-change event is archived. -/
theorem leave_match_host_rotation_last (slots : List Slot) (host0 : Option Nat) :
    leave_match_rotate_host slots true host0 =
      ⟨(occupiedPlayers slots).getLast?.getD host0,
       occupiedPlayers slots, true⟩ := by
  simp only [leave_match_rotate_host, if_true]
  rw [rotate_host_foldl]
  simp

/-- C3 counterexample: players 11 and 13 sit in slots 1 and 3; when the
host leaves, the claim picks slot 1's player (11), but the code makes 13
(the last occupied slot) the host and sends MATCH_TRANSFER_HOST to both 11
and 13, not only to the new host. -/
theorem leave_match_host_rotation_not_first :
    firstOccupiedPlayer
      [⟨1, none⟩, ⟨4, some 11⟩, ⟨1, none⟩, ⟨4, some 13⟩,
       ⟨1, none⟩, ⟨1, none⟩, ⟨1, none⟩, ⟨1, none⟩] = some (some 11) ∧
    (leave_match_rotate_host
      [⟨1, none⟩, ⟨4, some 11⟩, ⟨1, none⟩, ⟨4, some 13⟩,
       ⟨1, none⟩, ⟨1, none⟩, ⟨1, none⟩, ⟨1, none⟩] true (some 7)).host =
      some 13 ∧
    (leave_match_rotate_host
      [⟨1, none⟩, ⟨4, some 11⟩, ⟨1, none⟩, ⟨4, some 13⟩,
       ⟨1, none⟩, ⟨1, none⟩, ⟨1, none⟩, ⟨1, none⟩] true (some 7)).host ≠
      some 11 ∧
    (leave_match_rotate_host
      [⟨1, none⟩, ⟨4, some 11⟩, ⟨1, none⟩, ⟨4, some 13⟩,
       ⟨1, none⟩, ⟨1, none⟩, ⟨1, none⟩, ⟨1, none⟩] true (some 7)).transfer_host_packets ≠
      [some 13] := by decide

/-! ## Match bans on join (`join_match`, src/app/clients/handler.py)

After the match is found, the handler rejects tourney clients, players
already in a match, and — only when the player is *not an admin* — ids in
`match.banned_players`; then non-hosts must give the right password and a
free slot must exist. -/

/-- The joining player, as consulted by `join_match`. -/
structure JoinPlayer where
  id : Int
  is_tourney_client : Bool
  is_admin : Bool
  in_match : Bool
deriving DecidableEq, Repr

/-- The target match, as consulted by `join_match` (the free slot is the
result of `match.get_free()`). -/
structure JoinTarget where
  banned_players : List Int
  password : String
  host_id : Int
  free_slot : Option Nat
deriving DecidableEq, Repr

/-- Outcome of the join attempt: whether MATCH_JOIN_FAIL was enqueued and
which slot, if any, the player was placed in. -/
structure JoinResult where
  match_join_fail : Bool
  slot : Option Nat
deriving DecidableEq, Repr

/-- `join_match`, from the point where the match was found: the decision
cascade in source order (tourney check, already-in-match check, ban check
with admin bypass, password and free-slot checks for non-hosts). -/
def join_match (p : JoinPlayer) (m : JoinTarget) (joinPassword : String) :
    JoinResult :=
  if p.is_tourney_client then ⟨true, none⟩
  else if p.in_match then ⟨true, none⟩
  else if m.banned_players.contains p.id && !p.is_admin then ⟨true, none⟩
  else if p.id != m.host_id then
    if joinPassword != m.password then ⟨true, none⟩
    else match m.free_slot with
      | none => ⟨true, none⟩
      | some s => ⟨false, some s⟩
  else ⟨false, some 0⟩

/-- C5 (amended): a join attempt by a *non-admin* player whose id is in the
match's banned set is rejected with MATCH_JOIN_FAIL and no slot is
assigned; admins bypass the ban check. -/
theorem join_match_banned_rejected (p : JoinPlayer) (m : JoinTarget)
    (pw : String) (hban : m.banned_players.contains p.id = true)
    (hadmin : p.is_admin = false) :
    (join_match p m pw).match_join_fail = true ∧
    (join_match p m pw).slot = none := by
  have hmem : p.id ∈ m.banned_players := by simpa using hban
  cases htour : p.is_tourney_client <;>
    cases hinm : p.in_match <;>
      simp [join_match, htour, hinm, hmem, hadmin]

/-- Witness for C5's amended theorem: banned non-admin id 5 is rejected. -/
theorem join_match_banned_rejected_witness :
    ([(5 : Int)].contains (5 : Int) = true) ∧
    (join_match ⟨5, false, false, false⟩ ⟨[5], "pw", 1, some 2⟩ "pw").match_join_fail = true ∧
    (join_match ⟨5, false, false, false⟩ ⟨[5], "pw", 1, some 2⟩ "pw").slot = none :=
  ⟨by decide, join_match_banned_rejected ⟨5, false, false, false⟩
    ⟨[5], "pw", 1, some 2⟩ "pw" (by decide) (by decide)⟩

/-- C5 counterexample: a banned player who is an admin joins successfully —
id 5 is in the banned set, yet the join is not rejected and slot 2 is
assigned. -/
theorem join_match_banned_admin_joins :
    ([(5 : Int)].contains (5 : Int) = true) ∧
    join_match ⟨5, false, true, false⟩ ⟨[5], "pw", 1, some 2⟩ "pw" =
      ⟨false, some 2⟩ := by decide

/-! ## Match mods and the DoubleTime/Nightcore fix
(`change_mods`, src/app/clients/handler.py; `mp_mods`, src/app/commands.py)

`change_mods` writes `match.mods` (host only; masked to SpeedMods under
freemod) and then clears DoubleTime whenever DoubleTime and Nightcore are
both set.  The `!mp mods` command also writes `match.mods` but has no such
fix-up. -/

/-- `Mods.DoubleTime` (bit 6; `Mods` lives in `app.common.constants`,
external to this tree — standard osu! protocol values). -/
def Mods_DoubleTime : Nat := 64

/-- `Mods.HalfTime` (bit 8). -/
def Mods_HalfTime : Nat := 256

/-- `Mods.Nightcore` (bit 9). -/
def Mods_Nightcore : Nat := 512

/-- `Mods.SpeedMods = DoubleTime | HalfTime | Nightcore`. -/
def Mods_SpeedMods : Nat := Mods_DoubleTime ||| Mods_HalfTime ||| Mods_Nightcore

/-- `Mods.FreeModAllowed` (standard value: NoFail, Easy, Hidden, HardRock,
SuddenDeath, Flashlight, FadeIn, Relax, Autopilot, SpunOut and the key
mods; no speed mods). -/
def Mods_FreeModAllowed : Nat :=
  1 ||| 2 ||| 8 ||| 16 ||| 32 ||| 1024 ||| 1048576 ||| 128 ||| 8192 ||| 4096 |||
  32768 ||| 65536 ||| 131072 ||| 262144 ||| 524288 ||| 16777216 ||| 33554432

/-- `Mods.DoubleTime | Mods.Nightcore` — the Python containment test
`Mods.DoubleTime|Mods.Nightcore in mods` is `mods & 576 == 576`. -/
def Mods_DTNC : Nat := Mods_DoubleTime ||| Mods_Nightcore

/-- The new `match.mods` produced by the MATCH_CHANGE_MODS handler
(`change_mods`): the per-slot freemod mods are separate state and do not
touch `match.mods`; non-hosts leave `match.mods` unchanged (`cur`). -/
def change_mods_match_mods (freemod is_host : Bool) (cur mods : Nat) : Nat :=
  if freemod then
    if is_host then
      let m := mods &&& Mods_SpeedMods
      if m &&& Mods_DTNC = Mods_DTNC then Nat.ldiff m Mods_DoubleTime else m
    else cur
  else
    if is_host then
      if mods &&& Mods_DTNC = Mods_DTNC then Nat.ldiff mods Mods_DoubleTime
      else mods
    else cur

/-- The new `match.mods` produced by the `!mp mods` command (`mp_mods`):
early-out when unchanged, `mods & ~FreeModAllowed` under freemod, raw
`mods` otherwise — with no DoubleTime/Nightcore fix-up. -/
def mp_mods_match_mods (freemod : Bool) (cur mods : Nat) : Nat :=
  if mods = cur then cur
  else if freemod then Nat.ldiff mods Mods_FreeModAllowed
  else mods

/-- DoubleTime (bit 6) and Nightcore (bit 9) both set. -/
def dtNcBothSet (m : Nat) : Bool := m.testBit 6 && m.testBit 9

theorem land_dtnc_of_bits (m : Nat) (h6 : m.testBit 6 = true)
    (h9 : m.testBit 9 = true) : m &&& Mods_DTNC = Mods_DTNC := by
  have hd : Mods_DTNC = 2 ^ 6 ||| 2 ^ 9 := by decide
  apply Nat.eq_of_testBit_eq
  intro j
  rw [Nat.testBit_land, hd, Nat.testBit_lor]
  by_cases hj6 : j = 6
  · subst hj6
    have e9 : Nat.testBit (2 ^ 9) 6 = false :=
      Nat.testBit_two_pow_of_ne (by decide)
    rw [Nat.testBit_two_pow_self, e9, h6]
    rfl
  · by_cases hj9 : j = 9
    · subst hj9
      have e6 : Nat.testBit (2 ^ 6) 9 = false :=
        Nat.testBit_two_pow_of_ne (by decide)
      rw [Nat.testBit_two_pow_self, e6, h9]
      rfl
    · have e6 : Nat.testBit (2 ^ 6) j = false :=
        Nat.testBit_two_pow_of_ne (fun h => hj6 h.symm)
      have e9 : Nat.testBit (2 ^ 9) j = false :=
        Nat.testBit_two_pow_of_ne (fun h => hj9 h.symm)
      rw [e6, e9]
      simp

/-- The handler's fix-up pattern establishes the invariant regardless of
the incoming value. -/
theorem dtnc_fix_ok (m : Nat) :
    dtNcBothSet
      (if m &&& Mods_DTNC = Mods_DTNC then Nat.ldiff m Mods_DoubleTime else m) =
      false := by
  by_cases h : m &&& Mods_DTNC = Mods_DTNC
  · rw [if_pos h]
    have h64 : Nat.testBit Mods_DoubleTime 6 = true := by decide
    simp [dtNcBothSet, Nat.testBit_ldiff, h64]
  · rw [if_neg h]
    cases h6 : m.testBit 6
    · simp [dtNcBothSet, h6]
    · cases h9 : m.testBit 9
      · simp [dtNcBothSet, h6, h9]
      · exact absurd (land_dtnc_of_bits m h6 h9) h

/-- C4 (amended, MATCH_CHANGE_MODS part): every path of the
MATCH_CHANGE_MODS handler leaves `match.mods` with DoubleTime and Nightcore
never both set — the host paths clear DoubleTime whenever both would be
set, and the non-host paths keep the previous (invariant-satisfying)
value.  The `!mp mods` command is *not* covered: it can store both bits
(see the counterexample). -/
theorem change_mods_dtnc_invariant (freemod is_host : Bool) (cur mods : Nat)
    (hcur : dtNcBothSet cur = false) :
    dtNcBothSet (change_mods_match_mods freemod is_host cur mods) = false := by
  cases freemod <;> cases is_host <;>
    simp only [change_mods_match_mods, if_true, if_false, Bool.false_eq_true]
  · exact hcur
  · exact dtnc_fix_ok mods
  · exact hcur
  · exact dtnc_fix_ok (mods &&& Mods_SpeedMods)

/-- Witness for C4's amended theorem: a non-freemod host setting
DT|NC|HardRock (592) ends with DoubleTime cleared. -/
theorem change_mods_dtnc_invariant_witness :
    dtNcBothSet 0 = false ∧
    dtNcBothSet (change_mods_match_mods false true 0 592) = false :=
  ⟨by decide, change_mods_dtnc_invariant false true 0 592 (by decide)⟩

/-- C4 counterexample: `!mp mods` with mods = DoubleTime|Nightcore (576) in
a non-freemod match stores 576 — both bits set — so the invariant does not
hold on every mod-writing path. -/
theorem mp_mods_stores_dt_and_nc :
    dtNcBothSet 0 = false ∧
    mp_mods_match_mods false 0 576 = 576 ∧
    dtNcBothSet 576 = true := by decide

/-! ## Legacy framing (`BanchoProtocol.send_packet` and
`BanchoProtocol.packetDataReceived`, src/app/protocol.py)

Outbound: clients with version date ≤ 323 get a gzip-compressed payload
behind a legacy header; newer clients get the raw payload behind the full
header.  Inbound: the compression flag byte is read only when the version
date is > 323; otherwise the payload is always treated as compressed. -/

/-- An outbound payload, tagged by whether `gzip.compress` was applied. -/
inductive WirePayload
  | plain (data : List Nat)
  | gzipped (data : List Nat)
deriving DecidableEq, Repr

/-- One outbound frame.  Modelled from the spec: `StreamOut.header` writes
`u16 id, u8 compressed, u32 len` and `StreamOut.legacy_header` omits the
compressed-flag byte (`app.common.streams` is outside this tree); we record
the flag byte as `none` when the legacy header omits it, and the flag
written by `header` is 0. -/
structure OutFrame where
  packet_id : Nat
  flag_byte : Option Nat
  payload : WirePayload
deriving DecidableEq, Repr

/-- The framing decision of `send_packet`. -/
def send_packet_frame (clientDate : Int) (packetId : Nat) (data : List Nat) :
    OutFrame :=
  if clientDate ≤ 323 then
    ⟨packetId, none, .gzipped data⟩
  else
    ⟨packetId, some 0, .plain data⟩

/-- `packetDataReceived`: whether an inbound payload is treated as
compressed (`stream.bool() if self.client.version.date > 323 else True`). -/
def inbound_treated_compressed (clientDate : Int) (flagByte : Bool) : Bool :=
  if clientDate > 323 then flagByte else true

/-- C6: for clients on cohorts ≤ 323, every outbound payload is
gzip-compressed and framed with the legacy header that omits the flag byte,
and every inbound frame is treated as compressed regardless of any flag;
for clients on cohorts > 323, the payload is sent uncompressed with the
flag byte present (value 0). -/
theorem legacy_framing (clientDate : Int) (packetId : Nat) (data : List Nat)
    (flagByte : Bool) :
    (clientDate ≤ 323 →
      send_packet_frame clientDate packetId data = ⟨packetId, none, .gzipped data⟩ ∧
      inbound_treated_compressed clientDate flagByte = true) ∧
    (clientDate > 323 →
      send_packet_frame clientDate packetId data = ⟨packetId, some 0, .plain data⟩) := by
  constructor
  · intro h
    have h' : ¬clientDate > 323 := not_lt.mpr h
    constructor
    · rw [send_packet_frame, if_pos h]
    · rw [inbound_treated_compressed, if_neg h']
  · intro h
    have h' : ¬clientDate ≤ 323 := not_le.mpr h
    rw [send_packet_frame, if_neg h']

/-- Witness for C6 at dates 323 (legacy) and 324 (modern). -/
theorem legacy_framing_witness :
    (send_packet_frame 323 5 [1, 2] = ⟨5, none, .gzipped [1, 2]⟩ ∧
      inbound_treated_compressed 323 false = true) ∧
    send_packet_frame 324 5 [1, 2] = ⟨5, some 0, .plain [1, 2]⟩ :=
  ⟨(legacy_framing 323 5 [1, 2] false).1 (by decide),
   (legacy_framing 324 5 [1, 2] false).2 (by decide)⟩

/-! ## Legacy LOGIN_REPLY clamp (`send_login_reply`,
src/app/clients/b590/encoder.py — registered for cohorts 590 and 558)

`if reply < -2: reply = -1`, then
`reply.to_bytes(length=4, byteorder='little', signed=True)`. -/

/-- Python `int.to_bytes(length=4, byteorder="little", signed=True)`:
little-endian bytes of the value modulo 2^32. -/
def to_bytes_4_le_signed (v : Int) : List Nat :=
  let u := (v % 4294967296).toNat
  [u % 256, u / 256 % 256, u / 65536 % 256, u / 16777216 % 256]

/-- `send_login_reply` as registered in `PACKETS[590]` and `PACKETS[558]`:
clamp error codes below -2 to -1, then encode. -/
def send_login_reply (reply : Int) : List Nat :=
  let reply := if reply < -2 then -1 else reply
  to_bytes_4_le_signed reply

/-- C7: on the legacy cohorts (590, 558) the LOGIN_REPLY encoder clamps
every value below -2 to the encoding of -1, and encodes every value ≥ -2
unchanged, as a 4-byte little-endian signed integer. -/
theorem login_reply_clamp (reply : Int) :
    (reply < -2 → send_login_reply reply = to_bytes_4_le_signed (-1)) ∧
    (-2 ≤ reply → send_login_reply reply = to_bytes_4_le_signed reply) := by
  constructor
  · intro h
    rw [send_login_reply]
    simp only [if_pos h]
  · intro h
    have h' : ¬reply < -2 := not_lt.mpr (by omega)
    rw [send_login_reply]
    simp only [if_neg h']

/-- Witness for C7 at -5 (clamped to the bytes of -1) and -2 (unchanged). -/
theorem login_reply_clamp_witness :
    send_login_reply (-5) = to_bytes_4_le_signed (-1) ∧
    send_login_reply (-5) = [255, 255, 255, 255] ∧
    send_login_reply (-2) = to_bytes_4_le_signed (-2) :=
  ⟨(login_reply_clamp (-5)).1 (by decide),
   by decide,
   (login_reply_clamp (-2)).2 (by decide)⟩

/-! ## Match password non-disclosure (`Player.enqueue_match`,
src/app/objects/player.py)

`enqueue_match` rewrites a non-empty password to a single space unless
`send_password` is set, then sends UPDATE_MATCH or NEW_MATCH. -/

/-- The transmitted match structure, reduced to the field the claim
consults. -/
structure BMatch where
  password : String
deriving DecidableEq, Repr

/-- Which packet `enqueue_match` sends. -/
inductive MatchPacketKind
  | new_match
  | update_match
deriving DecidableEq, Repr

/-- The packet produced by `enqueue_match`. -/
structure MatchPacket where
  kind : MatchPacketKind
  payload : BMatch
deriving DecidableEq, Repr

/-- `Player.enqueue_match`: blank out a non-empty password (to `" "`)
unless `send_password`, then send UPDATE_MATCH (if `update`) or NEW_MATCH. -/
def enqueue_match (m : BMatch) (update : Bool) (send_password : Bool) :
    MatchPacket :=
  let m := if !send_password && m.password != "" then { m with password := " " }
           else m
  ⟨if update then .update_match else .new_match, m⟩

/-- C9: whenever a match with a non-empty password is enqueued without
`send_password`, the transmitted password field is exactly one space — for
both NEW_MATCH and UPDATE_MATCH. -/
theorem enqueue_match_hides_password (m : BMatch) (update : Bool)
    (hp : m.password ≠ "") :
    (enqueue_match m update false).payload.password = " " := by
  have hb : (!false && m.password != "") = true := by
    simp [hp]
  simp [enqueue_match, hb]
  rw [if_neg hp]

/-- Witness for C9 with password "secret". -/
theorem enqueue_match_hides_password_witness :
    (enqueue_match ⟨"secret"⟩ true false).payload.password = " " :=
  enqueue_match_hides_password ⟨"secret"⟩ true (by decide)

/-! ## BEATMAP_INFO request limit (`beatmap_info`,
src/app/clients/handler.py)

With the default `ignore_limit=False`, the handler truncates both request
lists to their first 100 entries before any lookup.  The database lookups
and the construction of `bBeatmapInfo` entries are abstracted: a fetched
beatmap row is represented by its id, and the produced `maps` list (pairs
of request index and beatmap, index −1 for id-based entries) determines the
BEATMAP_INFO_REPLY entry-for-entry. -/

/-- `beatmap_info`: truncate (unless `ignore_limit`), then look up
filenames (keeping their request index) and ids (index −1), in order. -/
def beatmap_info (fetch_by_file : String → Option Int)
    (fetch_by_id : Int → Option Int) (filenames : List String)
    (beatmap_ids : List Int) (ignore_limit : Bool) : List (Int × Int) :=
  let filenames := if ignore_limit then filenames else filenames.take 100
  let beatmap_ids := if ignore_limit then beatmap_ids else beatmap_ids.take 100
  (filenames.enum.filterMap fun p => (fetch_by_file p.2).map fun b => ((p.1 : Int), b))
    ++ (beatmap_ids.filterMap fun i => (fetch_by_id i).map fun b => ((-1 : Int), b))

/-- C10: with the default `ignore_limit=False`, only the first 100
filenames and the first 100 beatmap ids are processed — appending any
entries past the first 100 of either list leaves the reply unchanged, and
the reply equals the unlimited processing of the two truncated lists. -/
theorem beatmap_info_limit (f : String → Option Int) (g : Int → Option Int)
    (fns extraF : List String) (ids extraI : List Int)
    (h1 : fns.length = 100) (h2 : ids.length = 100) :
    beatmap_info f g (fns ++ extraF) (ids ++ extraI) false =
      beatmap_info f g fns ids false ∧
    beatmap_info f g fns ids false = beatmap_info f g fns ids true := by
  have e1 : (fns ++ extraF).take 100 = fns := by
    rw [← h1]; exact List.take_left fns extraF
  have e2 : (ids ++ extraI).take 100 = ids := by
    rw [← h2]; exact List.take_left ids extraI
  have e3 : fns.take 100 = fns := by
    rw [← h1]; exact List.take_length fns
  have e4 : ids.take 100 = ids := by
    rw [← h2]; exact List.take_length ids
  constructor <;> simp [beatmap_info, e1, e2, e3, e4]

/-- Witness for C10: 100 filenames plus one extra, 100 ids plus one extra. -/
theorem beatmap_info_limit_witness :
    beatmap_info (fun _ => none) (fun i => some i)
        (List.replicate 100 "f" ++ ["x"]) (List.replicate 100 7 ++ [9]) false =
      beatmap_info (fun _ => none) (fun i => some i)
        (List.replicate 100 "f") (List.replicate 100 7) false ∧
    beatmap_info (fun _ => none) (fun i => some i)
        (List.replicate 100 "f") (List.replicate 100 7) false =
      beatmap_info (fun _ => none) (fun i => some i)
        (List.replicate 100 "f") (List.replicate 100 7) true :=
  beatmap_info_limit (fun _ => none) (fun i => some i)
    (List.replicate 100 "f") ["x"] (List.replicate 100 7) [9]
    (List.length_replicate 100 "f") (List.length_replicate 100 7)

/-! ## Login epilogue packet order (`Player.login_success`,
src/app/objects/player.py)

`login_success` sends, in source order: PROTOCOL_VERSION 18, LOGIN_REPLY
with the user's id, MENU_ICON, LOGIN_PERMISSIONS, own presence, own stats,
the bot's presence (IRC_JOIN on old cohorts), FRIENDS_LIST; then the other
players (presence bundles of 150 on modern cohorts, per-player presence on
old ones), the readable public channels (autojoin channels are also
joined), CHANNEL_INFO_COMPLETE, the remaining silence if silenced, and a
LOBBY_JOIN per player in the lobby. -/

/-- Logical outbound packets of the login epilogue.  The combined legacy
stats packet (`USER_STATS` carrying stats plus presence, with an extra
update flag on cohorts ≤ 319) is `userStatsPacket uid withPresence flag`. -/
inductive LoginPkt
  | protocolVersion (v : Int)
  | loginReply (userId : Int)
  | menuIcon
  | loginPermissions
  | userPresencePacket (userId : Int)
  | userStatsPacket (userId : Int) (withPresence : Bool) (updateFlag : Option Bool)
  | ircJoin (name : String)
  | friendsList (ids : List Int)
  | userPresenceBundle (ids : List Int)
  | channelAvailable (name : String)
  | channelAvailableAutojoin (name : String)
  | channelJoinSuccess (name : String)
  | channelInfoComplete
  | silenceInfo (remaining : Int)
  | lobbyJoin (userId : Int)
deriving DecidableEq, Repr

/-- `Player.enqueue_presence`: combined USER_STATS on cohorts ≤ 1710 (with
the extra update flag on ≤ 319), USER_PRESENCE otherwise. -/
def enqueue_presence (date uid : Int) (update : Bool) : LoginPkt :=
  if date ≤ 319 then .userStatsPacket uid true (some update)
  else if date ≤ 1710 then .userStatsPacket uid true none
  else .userPresencePacket uid

/-- `Player.enqueue_stats`: USER_STATS, with presence attached on ≤ 319. -/
def enqueue_stats (date uid : Int) : LoginPkt :=
  if date ≤ 319 then .userStatsPacket uid true none
  else .userStatsPacket uid false none

/-- `Player.enqueue_irc_player`: IRC_JOIN on cohorts ≤ 1710, presence
otherwise. -/
def enqueue_irc_player (date : Int) (botName : String) (botId : Int) :
    LoginPkt :=
  if date ≤ 1710 then .ircJoin botName
  else enqueue_presence date botId false

/-- Chunks of 150 ids (`n = max(1, 150)` in `enqueue_players`). -/
def chunksOf150 (l : List Int) : List (List Int) :=
  match l with
  | [] => []
  | x :: xs => ((x :: xs).take 150) :: chunksOf150 ((x :: xs).drop 150)
termination_by l.length
decreasing_by
  simp [List.length_drop]
  omega

/-- `Player.enqueue_players` (with `stats_only=False`): per-player presence
on cohorts without USER_PRESENCE_BUNDLE, bundles of 150 otherwise. -/
def enqueue_players_pkts (date : Int) (ids : List Int) : List LoginPkt :=
  if date ≤ 1710 then ids.map (fun i => enqueue_presence date i false)
  else if date ≤ 20121223 then ids.map (fun i => enqueue_presence date i false)
  else (chunksOf150 ids).map (fun c => .userPresenceBundle c)

/-- One public channel as consulted by the login epilogue: its name,
whether the principal satisfies its read mask, and whether it is configured
as autojoin. -/
structure ChannelCfg where
  name : String
  can_read : Bool
  autojoin : Bool
deriving DecidableEq, Repr

/-- The channel-announcement loop.  A readable autojoin channel is
announced with CHANNEL_AVAILABLE_AUTOJOIN and then joined — `channel.add`
emits CHANNEL_JOIN_SUCCESS to the joiner (modelled from the spec:
`app.objects.channel` is outside this tree). -/
def channel_pkts : List ChannelCfg → List LoginPkt
  | [] => []
  | ch :: rest =>
    (if ch.can_read then
       if ch.autojoin then
         [.channelAvailableAutojoin ch.name, .channelJoinSuccess ch.name]
       else [.channelAvailable ch.name]
     else []) ++ channel_pkts rest

/-- `Player.login_success` as the ordered list of packets it emits. -/
def login_success_pkts (date selfId : Int) (botName : String) (botId : Int)
    (friends others : List Int) (channels : List ChannelCfg)
    (silenced : Bool) (remaining : Int) (lobby : List Int) : List LoginPkt :=
  [.protocolVersion 18, .loginReply selfId, .menuIcon, .loginPermissions,
   enqueue_presence date selfId false, enqueue_stats date selfId,
   enqueue_irc_player date botName botId, .friendsList friends]
  ++ enqueue_players_pkts date others
  ++ channel_pkts channels
  ++ [.channelInfoComplete]
  ++ (if silenced then [.silenceInfo remaining] else [])
  ++ lobby.map (fun i => .lobbyJoin i)

theorem channel_pkts_announces (chs : List ChannelCfg) (ch : ChannelCfg)
    (hmem : ch ∈ chs) (hread : ch.can_read = true) :
    LoginPkt.channelAvailable ch.name ∈ channel_pkts chs ∨
    LoginPkt.channelAvailableAutojoin ch.name ∈ channel_pkts chs := by
  induction chs with
  | nil => simp at hmem
  | cons c rest ih =>
    rcases List.mem_cons.mp hmem with rfl | hmem'
    · cases haj : ch.autojoin
      · left
        apply List.mem_append_left
        simp [hread, haj]
      · right
        apply List.mem_append_left
        simp [hread, haj]
    · rcases ih hmem' with h | h
      · left; exact List.mem_append_right _ h
      · right; exact List.mem_append_right _ h

/-- C8: every successful login's epilogue starts, in this order, with the
protocol-version constant, the login reply carrying the user's id, the menu
icon, the permission mask, the player's own presence, the player's own
stats, the bot's presence and the friends list (each in its cohort-specific
encoding); every readable public channel is announced afterwards and
CHANNEL_INFO_COMPLETE follows the announcements. -/
theorem login_epilogue_order (date selfId : Int) (botName : String)
    (botId : Int) (friends others : List Int) (channels : List ChannelCfg)
    (silenced : Bool) (remaining : Int) (lobby : List Int) :
    ∃ mid post,
      login_success_pkts date selfId botName botId friends others channels
          silenced remaining lobby =
        [.protocolVersion 18, .loginReply selfId, .menuIcon, .loginPermissions,
         enqueue_presence date selfId false, enqueue_stats date selfId,
         enqueue_irc_player date botName botId, .friendsList friends]
          ++ (mid ++ (LoginPkt.channelInfoComplete :: post)) ∧
      ∀ ch ∈ channels, ch.can_read = true →
        (LoginPkt.channelAvailable ch.name ∈ mid ∨
         LoginPkt.channelAvailableAutojoin ch.name ∈ mid) := by
  refine ⟨enqueue_players_pkts date others ++ channel_pkts channels,
    (if silenced then [.silenceInfo remaining] else [])
      ++ lobby.map (fun i => .lobbyJoin i), ?_, ?_⟩
  · simp [login_success_pkts, List.append_assoc]
  · intro ch hch hread
    rcases channel_pkts_announces channels ch hch hread with h | h
    · left; exact List.mem_append_right _ h
    · right; exact List.mem_append_right _ h

end Anchor
